import Mathlib

/-!
Verification of the bank-reviews analysis system
(clause splitter, topic/sentiment classifiers, aggregator, REST upload layer).

The dashboard frontend (TypeScript) and the FastAPI endpoint logic are embedded
from the repository sources and from the code excerpts in `docs/05-backend.md`.
The ML inference pipeline itself (`backend/app/ml/*`, `scripts/clause/splitter.py`)
is not part of the available sources; the corresponding definitions are modelled
from the specification and are marked as such in their doc comments.
-/

set_option linter.unusedVariables false

/-- The three-way sentiment label set used throughout the pipeline. -/
inductive Sentiment where
  | positive : Sentiment
  | neutral : Sentiment
  | negative : Sentiment
deriving DecidableEq, Repr, BEq

/-- Severity order on sentiments: negative > neutral > positive. -/
def Sentiment.severity : Sentiment → Nat
  | Sentiment.negative => 2
  | Sentiment.neutral => 1
  | Sentiment.positive => 0

/-- A review identifier: the upload schema allows `Union[int, str]`. -/
abbrev ReviewId := Nat ⊕ String

/-- Modelled from the spec: per-topic sentiment resolution of the Aggregator
(`run_and_aggregate_from_json` in `backend/app/ml/pipeline.py`, not in the
available sources).  Majority vote over the mention list, exact ties broken by
the severity order negative > neutral > positive (most severe wins). -/
def resolveSentiment (l : List Sentiment) : Sentiment :=
  if l.count Sentiment.neutral ≤ l.count Sentiment.negative ∧
      l.count Sentiment.positive ≤ l.count Sentiment.negative then
    Sentiment.negative
  else if l.count Sentiment.positive ≤ l.count Sentiment.neutral then
    Sentiment.neutral
  else
    Sentiment.positive

/-- Per-clause prediction: the clause text, the topic labels assigned by the
topic classifier, and the sentiment label with its confidence from the
sentiment classifier. -/
structure ClausePrediction where
  clauseText : List Char
  topics : List String
  sentiment : Sentiment
  sentimentConfidence : ℚ
deriving DecidableEq

/-- Review-level prediction: one sentiment per distinct mentioned topic. -/
structure ReviewPrediction where
  review_id : ReviewId
  topic_sentiments : List (String × Sentiment)
  overall_confidence : ℚ
deriving DecidableEq

/-- Insert a topic at the end of the list unless it is already present
(first-mention order, deduplicated). -/
def insertTopic (acc : List String) (t : String) : List String :=
  if t ∈ acc then acc else acc ++ [t]

/-- Modelled from the spec: the ordered, deduplicated list of all topics
mentioned by at least one clause of the review (Aggregator step 1; the
aggregation code of `backend/app/ml/pipeline.py` is not in the available
sources). -/
def mentionedTopics (preds : List ClausePrediction) : List String :=
  preds.foldl (fun acc p => p.topics.foldl insertTopic acc) []

/-- The sentiments of all clauses of the review, in clause order. -/
def allSentiments (preds : List ClausePrediction) : List Sentiment :=
  preds.map ClausePrediction.sentiment

/-- The ordered list of sentiments assigned by every clause that mentioned
topic `t` (Aggregator step 1). -/
def mentionList (preds : List ClausePrediction) (t : String) : List Sentiment :=
  (preds.filter (fun p => p.topics.contains t)).map ClausePrediction.sentiment

/-- The sentinel topic used when no clause matched any ontology topic. -/
def otherTopic : String := "Другое"

/-- One resolved (topic, sentiment) pair per mentioned topic (Aggregator step 2). -/
def topicSentimentPairs (preds : List ClausePrediction) : List (String × Sentiment) :=
  (mentionedTopics preds).map (fun t => (t, resolveSentiment (mentionList preds t)))

/-- Arithmetic mean of a list of rationals (0 for the empty list). -/
def qmean (l : List ℚ) : ℚ :=
  if l.isEmpty then 0 else l.sum / l.length

/-- Confidences of the clauses that contributed to the majority sentiment
chosen for topic `t` (Aggregator step 4). -/
def contributing (preds : List ClausePrediction) (t : String) : List ℚ :=
  (preds.filter (fun p =>
      p.topics.contains t && p.sentiment == resolveSentiment (mentionList preds t))).map
    ClausePrediction.sentimentConfidence

/-- Modelled from the spec: overall confidence of a review prediction — the
mean of the contributing per-clause confidences per topic, averaged again
across topics (Aggregator step 4; code not in the available sources). -/
def overallConfidence (preds : List ClausePrediction) : ℚ :=
  if (mentionedTopics preds).isEmpty then
    qmean ((preds.filter (fun p =>
        p.sentiment == resolveSentiment (allSentiments preds))).map
      ClausePrediction.sentimentConfidence)
  else
    qmean ((mentionedTopics preds).map (fun t => qmean (contributing preds t)))

/-- Modelled from the spec: the Aggregator
(`aggregate(review_id, clause_predictions) -> ReviewPrediction`; the
implementation in `backend/app/ml/pipeline.py` is not in the available
sources).  Resolves one sentiment per mentioned topic; when no clause matched
any topic it falls back to the single sentinel entry "Другое" with the
sentiment resolved across all clauses. -/
def aggregate (rid : ReviewId) (preds : List ClausePrediction) : ReviewPrediction :=
  if (mentionedTopics preds).isEmpty then
    { review_id := rid
      topic_sentiments := [(otherTopic, resolveSentiment (allSentiments preds))]
      overall_confidence := overallConfidence preds }
  else
    { review_id := rid
      topic_sentiments := topicSentimentPairs preds
      overall_confidence := overallConfidence preds }

/-- Sentence-ending punctuation on which the clause splitter cuts. -/
def sentencePunct : List Char := ['.', '!', '?', ';']

/-- Whitespace characters (clause trimming and word tokenization). -/
def isSpaceChar (c : Char) : Bool :=
  c == ' ' || c == '\n' || c == '\t' || c == '\r'

/-- Split a character list at sentence-ending punctuation (separators dropped). -/
def splitPunct : List Char → List (List Char)
  | [] => [[]]
  | c :: cs =>
    if sentencePunct.contains c then
      [] :: splitPunct cs
    else
      match splitPunct cs with
      | [] => [[c]]
      | s :: ss => (c :: s) :: ss

/-- Split a character list at whitespace (separators dropped, empties kept). -/
def splitSpaces : List Char → List (List Char)
  | [] => [[]]
  | c :: cs =>
    if isSpaceChar c then
      [] :: splitSpaces cs
    else
      match splitSpaces cs with
      | [] => [[c]]
      | s :: ss => (c :: s) :: ss

/-- The whitespace-separated words of a character list. -/
def wordsOf (l : List Char) : List (List Char) :=
  (splitSpaces l).filter (fun w => !w.isEmpty)

/-- Rejoin words with single spaces (whitespace normalization). -/
def joinWords : List (List Char) → List Char
  | [] => []
  | [w] => w
  | w :: ws => w ++ ' ' :: joinWords ws

/-- Modelled from the spec: the configured contrastive/additive discourse
markers of the clause splitter (`scripts/clause/splitter.py` is not in the
available sources), as whole-word sequences. -/
def markerWords : List (List (List Char)) :=
  [["но".toList], ["однако".toList], ["зато".toList], ["а".toList],
   ["при".toList, "этом".toList], ["к".toList, "тому".toList, "же".toList]]

/-- Strip a word sequence from the front of a word list, if it matches there. -/
def stripWords : List (List Char) → List (List Char) → Option (List (List Char))
  | [], ws => some ws
  | _ :: _, [] => none
  | m :: ms, w :: ws => if w = m then stripWords ms ws else none

/-- Try every discourse marker at the front of the word list; on success return
the words after the marker. -/
def matchMarkerAux : List (List (List Char)) → List (List Char) → Option (List (List Char))
  | [], _ => none
  | mk :: mks, ws =>
    match stripWords mk ws with
    | some rest => some rest
    | none => matchMarkerAux mks ws

/-- First discourse marker matching at the front of the word list, if any. -/
def matchMarker (ws : List (List Char)) : Option (List (List Char)) :=
  matchMarkerAux markerWords ws

/-- Whether a discourse marker occurs (as whole words) anywhere in a word list. -/
def containsMarker : List (List Char) → Bool
  | [] => false
  | w :: ws => (matchMarker (w :: ws)).isSome || containsMarker ws

/-- Fuelled worker splitting a word list at discourse-marker occurrences
(the marker words are dropped, like the punctuation separators). -/
def splitAtMarkersF : Nat → List (List Char) → List (List (List Char))
  | _, [] => [[]]
  | 0, ws => [ws]
  | Nat.succ n, w :: ws =>
    match matchMarker (w :: ws) with
    | some after => [] :: splitAtMarkersF n after
    | none =>
      match splitAtMarkersF n ws with
      | [] => [[w]]
      | s :: ss => (w :: s) :: ss

/-- Split a word list at discourse-marker occurrences.  The fuel `ws.length`
always suffices because every step consumes at least one word. -/
def splitAtMarkers (ws : List (List Char)) : List (List (List Char)) :=
  splitAtMarkersF ws.length ws

/-- All word chunks of a review: punctuation segments, each further split at
discourse markers. -/
def clauseChunks (text : List Char) : List (List (List Char)) :=
  ((splitPunct text).map (fun seg => splitAtMarkers (wordsOf seg))).flatten

/-- Append one chunk to the clause list (kept in reverse order): empty chunks
are dropped, chunks with fewer than 2 tokens are merged into the preceding
clause when one exists, all other chunks start a new clause. -/
def addChunk (acc : List (List (List Char))) (chunk : List (List Char)) :
    List (List (List Char)) :=
  match chunk with
  | [] => acc
  | _ :: _ =>
    if chunk.length < 2 then
      match acc with
      | [] => [chunk]
      | prev :: acc' => (prev ++ chunk) :: acc'
    else chunk :: acc

/-- Assemble the final clause word lists from the chunks. -/
def assembleClauses (chunks : List (List (List Char))) : List (List (List Char)) :=
  (chunks.foldl addChunk []).reverse

/-- Modelled from the spec: the Clause Splitter
(`split(review_text) -> ordered_sequence<Clause>`; `scripts/clause/splitter.py`
is not in the available sources).  Cuts at sentence-ending punctuation and at
the configured discourse markers, trims whitespace, merges fragments shorter
than 2 tokens into the preceding clause, and returns the empty sequence on
empty or whitespace-only input. -/
def split (text : List Char) : List (List Char) :=
  (assembleClauses (clauseChunks text)).map joinWords

/-- Modelled from the spec: the fixed model state of the pipeline — the opaque
pretrained classifiers (`backend/app/ml/tfidf_model.py`,
`backend/app/ml/xlmr_model.py`, not in the available sources) consumed through
a label-out interface, plus the topic ontology and thresholds supplied as
configuration. -/
structure Models where
  statScores : List Char → List (String × ℚ)
  statThreshold : String → ℚ
  ontology : List (String × List (List (List Char)))
  sentimentNet : List (List Char) → Sentiment × ℚ
  maxTokens : Nat

/-- Topic labels whose statistical score is above the per-class threshold. -/
def statLabels (m : Models) (clause : List Char) : List String :=
  ((m.statScores clause).filter (fun p => m.statThreshold p.1 < p.2)).map Prod.fst

/-- Whether a word sequence occurs contiguously (as whole words) in a word list. -/
def phraseInWords (p : List (List Char)) : List (List Char) → Bool
  | [] => (stripWords p []).isSome
  | w :: ws => (stripWords p (w :: ws)).isSome || phraseInWords p ws

/-- Topic labels fired by the rule layer: a canonical keyword or listed synonym
occurs in the clause as a whole-word match. -/
def ruleLabels (m : Models) (clause : List Char) : List String :=
  (m.ontology.filter (fun e =>
      e.2.any (fun ph => phraseInWords ph (wordsOf clause)))).map Prod.fst

/-- Modelled from the spec: the Topic Classifier
(`classify_topic(clause_text) -> set<TopicLabel>`; the implementation is not in
the available sources).  Union of the statistical layer and the rule layer,
deduplicated. -/
def classify_topic (m : Models) (clause : List Char) : List String :=
  (statLabels m clause ++ ruleLabels m clause).foldl insertTopic []

/-- Modelled from the spec: the Sentiment Classifier
(`classify_sentiment(clause_text) -> (SentimentLabel, confidence)`; the
implementation is not in the available sources).  Deterministic truncation to
the model's maximum input length, then one forward pass. -/
def classify_sentiment (m : Models) (clause : List Char) : Sentiment × ℚ :=
  m.sentimentNet ((wordsOf clause).take m.maxTokens)

/-- Run both classifiers on every clause of the review. -/
def clausePredictions (m : Models) (text : List Char) : List ClausePrediction :=
  (split text).map (fun c =>
    { clauseText := c
      topics := classify_topic m c
      sentiment := (classify_sentiment m c).1
      sentimentConfidence := (classify_sentiment m c).2 })

/-- Modelled from the spec: `predict_one(review) -> ReviewPrediction`
(the pipeline entry point of `backend/app/ml/pipeline.py`, not in the available
sources): split, classify per clause, aggregate. -/
def predict_one (m : Models) (rid : ReviewId) (text : List Char) : ReviewPrediction :=
  aggregate rid (clausePredictions m text)

/-- One input record of a prediction batch. -/
structure RawInput where
  id : ReviewId
  text : List Char
deriving DecidableEq

/-- One output record of the external interface: `{id, topics, sentiments}`
with parallel arrays. -/
structure OutputRecord where
  id : ReviewId
  topics : List String
  sentiments : List Sentiment
deriving DecidableEq

/-- Modelled from the spec: serialization of a `ReviewPrediction` into the
output contract's parallel arrays (the API layer code producing
`{id, topics, sentiments}` records is not in the available sources). -/
def predictRecord (m : Models) (r : RawInput) : OutputRecord :=
  { id := (predict_one m r.id r.text).review_id
    topics := (predict_one m r.id r.text).topic_sentiments.map Prod.fst
    sentiments := (predict_one m r.id r.text).topic_sentiments.map Prod.snd }

/-- Modelled from the spec: `predict_batch(reviews)` — a convenience wrapper
mapping `predict_one` over the batch (code not in the available sources). -/
def predict_batch (m : Models) (inputs : List RawInput) : List OutputRecord :=
  inputs.map (predictRecord m)

/-- Prefix match of one character list against another. -/
def leadMatch : List Char → List Char → Bool
  | [], _ => true
  | _ :: _, [] => false
  | a :: as, b :: bs => a == b && leadMatch as bs

/-- Whether `pat` occurs as a contiguous substring of the character list. -/
def containsSub (pat : List Char) : List Char → Bool
  | [] => leadMatch pat []
  | b :: bs => leadMatch pat (b :: bs) || containsSub pat bs

/-- ASCII lower-casing of one character (as Python `str.lower` on MIME types). -/
def lowerChar (c : Char) : Char :=
  if 'A' ≤ c ∧ c ≤ 'Z' then Char.ofNat (c.toNat + 32) else c

/-- ASCII lower-casing of a character list. -/
def toLowerChars (l : List Char) : List Char := l.map lowerChar

/-- Backend file-type check of `predict_file` (docs/05-backend.md): the upload
is accepted when a content type is present and contains "json"
case-insensitively (`"json" in file.content_type.lower()`). -/
def mimeJsonOk (ct : Option String) : Bool :=
  match ct with
  | none => false
  | some s => containsSub "json".toList (toLowerChars s.toList)

/-- Backend file-size check of `predict_file` (docs/05-backend.md): reject when
a size is reported and exceeds the 10 MB limit
(`file.size and file.size > 10 * 1024 * 1024`). -/
def sizeExceeds (sz : Option Nat) : Bool :=
  match sz with
  | none => false
  | some n => decide (10 * 1024 * 1024 < n)

/-- One item of the uploaded JSON (`FileUploadItem`): `id: Union[int, str]` and
a `text` field; `none` models a missing or non-string text value. -/
structure RawItem where
  id : ReviewId
  text : Option String
deriving DecidableEq

/-- Pydantic validity of one item: `text: str = Field(..., min_length=1)`. -/
def itemValid (it : RawItem) : Bool :=
  match it.text with
  | none => false
  | some t => decide (1 ≤ t.length)

/-- The ways `FileUploadData.parse_obj` can fail. -/
inductive ValidationErr where
  | emptyData : ValidationErr
  | invalidItem : ValidationErr
deriving DecidableEq

/-- Detail string of the HTTP 422 response (`f"Ошибка валидации: {e}"`). -/
def validationMsg : ValidationErr → String
  | ValidationErr.emptyData => "Ошибка валидации: data: пустой список отзывов"
  | ValidationErr.invalidItem => "Ошибка валидации: text: пустой или нестроковый текст"

/-- Pydantic validation of the uploaded JSON (`FileUploadData.parse_obj`):
`data` must be non-empty (`min_items=1`) and every item must have a non-empty
string text (`min_length=1`); any violation fails the whole batch. -/
def parseUploadData (items : List RawItem) : Except ValidationErr (List RawItem) :=
  if items.isEmpty then Except.error ValidationErr.emptyData
  else if items.all itemValid then Except.ok items
  else Except.error ValidationErr.invalidItem

/-- A processed item of the ML branch of the endpoint (docs/05-backend.md). -/
structure ProcessedItem where
  id : Nat
  predicted_sentiment : String
  predicted_products : List String
deriving DecidableEq

/-- The loaded ML pipeline as an opaque transform of the validated batch
(`ml_pipeline.run_and_aggregate_from_json` plus result post-processing). -/
def MLModel : Type := List RawItem → List ProcessedItem

/-- Outcome of one request to `POST /api/v1/predict`. -/
inductive PredictOutcome where
  | reject : Nat → String → PredictOutcome
  | fallback : PredictOutcome
  | ml : List ProcessedItem → PredictOutcome
deriving DecidableEq

/-- The `predict_file` endpoint as shown in docs/05-backend.md: reject non-JSON
content types and oversized files with HTTP 400, reject pydantic validation
failures with HTTP 422, then — if `ml_pipeline` is `None` — log a warning and
serve the request through the fallback stub, otherwise run the ML pipeline. -/
def predict_file (ml : Option MLModel) (ct : Option String) (sz : Option Nat)
    (items : List RawItem) : PredictOutcome :=
  if !mimeJsonOk ct then PredictOutcome.reject 400 "Поддерживаются только JSON файлы"
  else if sizeExceeds sz then PredictOutcome.reject 400 "Файл слишком большой"
  else
    match parseUploadData items with
    | Except.error e => PredictOutcome.reject 422 (validationMsg e)
    | Except.ok good =>
      match ml with
      | none => PredictOutcome.fallback
      | some mdl => PredictOutcome.ml (mdl good)

/-- An HTTP error response, as raised by `HTTPException`. -/
structure HTTPException where
  status_code : Nat
  detail : String
deriving DecidableEq

/-- The `GET /api/v1/predict/health` endpoint (docs/05-backend.md): HTTP 503
when the ML pipeline is not loaded, otherwise a healthy report. -/
def predict_health (ml : Option MLModel) : Except HTTPException String :=
  match ml with
  | none => Except.error { status_code := 503, detail := "ML пайплайн недоступен" }
  | some _ => Except.ok "healthy"

/-- Metadata of a file offered to the upload dialog (`File.type`, `File.size`). -/
structure FileMeta where
  ftype : String
  size : Nat
deriving DecidableEq

/-- State of the `FileUploadModal` component: the accepted file and the error
message, as held in the component's React state. -/
structure UploadState where
  selectedFile : Option FileMeta
  error : Option String
deriving DecidableEq

/-- Initial state of the upload dialog (no file selected, no error). -/
def initState : UploadState := { selectedFile := none, error := none }

/-- `handleFileSelect` of the frontend upload modal: reject a non-JSON MIME
type, then a size above 10 MB, recording an error message and leaving the
selected file unchanged; otherwise select the file and clear the error. -/
def handleFileSelect (st : UploadState) (f : FileMeta) : UploadState :=
  if f.ftype ≠ "application/json" then
    { st with error := some "Пожалуйста, выберите JSON файл" }
  else if 10 * 1024 * 1024 < f.size then
    { st with error := some "Размер файла не должен превышать 10 МБ" }
  else
    { selectedFile := some f, error := none }

/-- Run a sequence of file-selection events from the initial dialog state. -/
def runSelects (fs : List FileMeta) : UploadState :=
  fs.foldl handleFileSelect initState

/-- `truncateText` of the frontend utilities: return the text unchanged when it
fits, otherwise the first `maxLength` characters followed by "...". -/
def truncateText (text : List Char) (maxLength : Nat) : List Char :=
  if text.length ≤ maxLength then text
  else text.take maxLength ++ "...".toList


/-- Demo clause predictions: the topic "Ипотека" mentioned by two clauses with
an exact positive/negative tie. -/
def demoPreds : List ClausePrediction :=
  [{ clauseText := "одобрили быстро".toList, topics := ["Ипотека"],
     sentiment := Sentiment.positive, sentimentConfidence := 9/10 },
   { clauseText := "ставка ужасная".toList, topics := ["Ипотека"],
     sentiment := Sentiment.negative, sentimentConfidence := 8/10 }]

/-- Demo clause predictions where no clause matched any ontology topic. -/
def noTopicPreds : List ClausePrediction :=
  [{ clauseText := "нормально без впечатлений".toList, topics := [],
     sentiment := Sentiment.neutral, sentimentConfidence := 1/2 }]

/-- A concrete model state used to exercise the pipeline. -/
def demoModels : Models :=
  { statScores := fun _ => [("Ипотека", 9/10)]
    statThreshold := fun _ => 1/2
    ontology := []
    sentimentNet := fun _ => (Sentiment.positive, 9/10)
    maxTokens := 512 }

/-- A valid one-review upload batch. -/
def demoBatch : List RawItem := [{ id := Sum.inl 1, text := some "Отличный банк" }]

/-- An upload batch whose first review has an empty text. -/
def badBatch : List RawItem :=
  [{ id := Sum.inl 1, text := some "" }, { id := Sum.inl 2, text := some "Отличный банк" }]

/-- A demo prediction input batch. -/
def demoInputs : List RawInput := [{ id := Sum.inl 1, text := "Отличный банк".toList }]

/-! ## Helper lemmas -/

theorem resolveSentiment_count_le (l : List Sentiment) (s : Sentiment) :
    l.count s ≤ l.count (resolveSentiment l) := by
  unfold resolveSentiment
  split_ifs with h1 h2 <;> cases s <;> omega

theorem resolveSentiment_severity (l : List Sentiment) (s : Sentiment)
    (h : l.count s = l.count (resolveSentiment l)) :
    s.severity ≤ (resolveSentiment l).severity := by
  unfold resolveSentiment at h ⊢
  split_ifs at h ⊢ with h1 h2 <;> cases s <;>
    simp only [Sentiment.severity] <;> omega

theorem insertTopic_nodup (acc : List String) (t : String) (h : acc.Nodup) :
    (insertTopic acc t).Nodup := by
  unfold insertTopic
  split_ifs with hm
  · exact h
  · refine List.Nodup.append h (List.nodup_singleton t) ?_
    intro a ha hat
    rw [List.mem_singleton] at hat
    exact hm (hat ▸ ha)

theorem foldl_insertTopic_nodup (ts : List String) (acc : List String)
    (h : acc.Nodup) : (ts.foldl insertTopic acc).Nodup := by
  induction ts generalizing acc with
  | nil => simpa using h
  | cons t ts ih => exact ih _ (insertTopic_nodup _ _ h)

theorem mentionedTopics_nodup (preds : List ClausePrediction) :
    (mentionedTopics preds).Nodup := by
  unfold mentionedTopics
  suffices h : ∀ (ps : List ClausePrediction) (acc : List String), acc.Nodup →
      (ps.foldl (fun a p => p.topics.foldl insertTopic a) acc).Nodup by
    exact h preds [] List.nodup_nil
  intro ps
  induction ps with
  | nil => intro acc h; simpa using h
  | cons p ps ih => intro acc h; exact ih _ (foldl_insertTopic_nodup _ _ h)

theorem topicSentimentPairs_keys (preds : List ClausePrediction) :
    ((topicSentimentPairs preds).map Prod.fst) = mentionedTopics preds := by
  unfold topicSentimentPairs
  rw [List.map_map]
  exact List.map_id _

theorem topicKeys_nodup (rid : ReviewId) (preds : List ClausePrediction) :
    (((aggregate rid preds).topic_sentiments).map Prod.fst).Nodup := by
  unfold aggregate
  split_ifs with h
  · simp
  · simpa [topicSentimentPairs_keys] using mentionedTopics_nodup preds

theorem lookup_map_pair (f : String → Sentiment) (ts : List String) (t : String) :
    t ∈ ts → (ts.map (fun x => (x, f x))).lookup t = some (f t) := by
  induction ts with
  | nil => intro h; cases h
  | cons a ts ih =>
    intro h
    by_cases hta : t = a
    · subst hta
      simp [List.lookup]
    · have h' : t ∈ ts := by
        rcases List.mem_cons.mp h with h | h
        · exact absurd h hta
        · exact h
      simpa [List.lookup, beq_eq_false_iff_ne.mpr hta] using ih h'

theorem lookup_of_mem_nodup (l : List (String × Sentiment)) (p : String × Sentiment) :
    (l.map Prod.fst).Nodup → p ∈ l → l.lookup p.1 = some p.2 := by
  induction l with
  | nil => intro _ hp; cases hp
  | cons q l ih =>
    intro hnd hp
    rcases List.mem_cons.mp hp with hp | hp
    · subst hp
      simp [List.lookup]
    · have hq : p.1 ≠ q.1 := by
        intro he
        have h1 : q.1 ∈ l.map Prod.fst := he ▸ List.mem_map_of_mem Prod.fst hp
        rw [List.map_cons, List.nodup_cons] at hnd
        exact hnd.1 h1
      have hnd' : (l.map Prod.fst).Nodup := by
        rw [List.map_cons, List.nodup_cons] at hnd
        exact hnd.2
      simpa [List.lookup, beq_eq_false_iff_ne.mpr hq] using ih hnd' hp

theorem zip_fst_snd (l : List (String × Sentiment)) :
    (l.map Prod.fst).zip (l.map Prod.snd) = l := by
  induction l with
  | nil => rfl
  | cons a l ih => simp [ih]

theorem aggregate_review_id (rid : ReviewId) (preds : List ClausePrediction) :
    (aggregate rid preds).review_id = rid := by
  unfold aggregate
  split_ifs <;> rfl

theorem splitPunct_no_delims (l : List Char)
    (h : ∀ c ∈ l, sentencePunct.contains c = false) : splitPunct l = [l] := by
  induction l with
  | nil => rfl
  | cons c cs ih =>
    have hc : sentencePunct.contains c = false := h c (List.mem_cons_self c cs)
    have hcs : ∀ x ∈ cs, sentencePunct.contains x = false :=
      fun x hx => h x (List.mem_cons_of_mem c hx)
    simp only [splitPunct, hc]
    rw [ih hcs]
    simp

theorem splitAtMarkersF_no_marker (fuel : Nat) (ws : List (List Char))
    (hlen : ws.length ≤ fuel) (h : containsMarker ws = false) :
    splitAtMarkersF fuel ws = [ws] := by
  induction fuel generalizing ws with
  | zero =>
    cases ws with
    | nil => rfl
    | cons w ws => simp at hlen
  | succ n ih =>
    cases ws with
    | nil => rfl
    | cons w ws =>
      have hm : matchMarker (w :: ws) = none := by
        unfold containsMarker at h
        cases hmm : matchMarker (w :: ws) with
        | none => rfl
        | some r => rw [hmm] at h; simp at h
      have hws : containsMarker ws = false := by
        unfold containsMarker at h
        cases ws with
        | nil => rfl
        | cons v vs =>
          rw [Bool.or_eq_false_iff] at h
          exact h.2
      have hlen' : ws.length ≤ n := by simpa using hlen
      simp only [splitAtMarkersF, hm]
      rw [ih ws hlen' hws]

theorem splitAtMarkers_no_marker (ws : List (List Char))
    (h : containsMarker ws = false) : splitAtMarkers ws = [ws] :=
  splitAtMarkersF_no_marker ws.length ws le_rfl h

theorem assembleClauses_single (ws : List (List Char)) (h : ws ≠ []) :
    assembleClauses [ws] = [ws] := by
  cases ws with
  | nil => exact absurd rfl h
  | cons w t =>
    unfold assembleClauses addChunk
    simp only [List.foldl_cons, List.foldl_nil]
    split_ifs <;> rfl

theorem wordsOf_split_eq (text : List Char)
    (hp : ∀ c ∈ text, sentencePunct.contains c = false)
    (hm : containsMarker (wordsOf text) = false)
    (hw : wordsOf text ≠ []) :
    split text = [joinWords (wordsOf text)] := by
  unfold split clauseChunks
  rw [splitPunct_no_delims text hp]
  simp only [List.map_cons, List.map_nil, List.flatten]
  rw [splitAtMarkers_no_marker (wordsOf text) hm]
  simp only [List.append_nil]
  rw [assembleClauses_single (wordsOf text) hw]
  rfl

theorem runSelects_inv (fs : List FileMeta) (st : UploadState)
    (h : ∀ f, st.selectedFile = some f →
        f.ftype = "application/json" ∧ f.size ≤ 10 * 1024 * 1024) :
    ∀ f, (fs.foldl handleFileSelect st).selectedFile = some f →
        f.ftype = "application/json" ∧ f.size ≤ 10 * 1024 * 1024 := by
  induction fs generalizing st with
  | nil => simpa using h
  | cons g fs ih =>
    refine ih (handleFileSelect st g) ?_
    intro f hf
    unfold handleFileSelect at hf
    split_ifs at hf with h1 h2
    · exact h f hf
    · exact h f hf
    · simp only [Option.some.injEq] at hf
      subst hf
      constructor
      · by_contra hc
        exact h1 hc
      · omega

/-! ## Claim theorems -/

/-- C10: `truncateText text maxLength` returns `text` unchanged when
`text.length ≤ maxLength`, and otherwise returns the first `maxLength`
characters of `text` followed by "...", so the result has length
`maxLength + 3`; as a pure function it never modifies its input. -/
theorem truncateText_spec (text : List Char) (maxLength : Nat) :
    (text.length ≤ maxLength → truncateText text maxLength = text)
    ∧ (maxLength < text.length →
        truncateText text maxLength = text.take maxLength ++ "...".toList
        ∧ (truncateText text maxLength).length = maxLength + 3) := by
  constructor
  · intro h
    simp [truncateText, h]
  · intro h
    have hn : ¬ text.length ≤ maxLength := by omega
    refine ⟨by simp [truncateText, hn], ?_⟩
    simp [truncateText, hn, List.length_take]
    omega

/-- Witness for C10 at a concrete oversized input. -/
theorem truncateText_spec_witness :
    4 < ("привет".toList).length
    ∧ (truncateText "привет".toList 4 = ("привет".toList).take 4 ++ "...".toList
        ∧ (truncateText "привет".toList 4).length = 4 + 3) :=
  ⟨by decide, (truncateText_spec "привет".toList 4).2 (by decide)⟩

/-- C7: `predict_one` is deterministic — two runs on the identical review text
with the same fixed model state yield the same `ReviewPrediction`. -/
theorem predict_one_deterministic (m : Models) (rid : ReviewId) (text : List Char)
    (r₁ r₂ : ReviewPrediction)
    (h₁ : r₁ = predict_one m rid text) (h₂ : r₂ = predict_one m rid text) :
    r₁ = r₂ :=
  h₁.trans h₂.symm

/-- Witness for C7 at a concrete model and review text. -/
theorem predict_one_deterministic_witness :
    predict_one demoModels (Sum.inl 1) "Отличный банк".toList
      = predict_one demoModels (Sum.inl 1) "Отличный банк".toList :=
  predict_one_deterministic demoModels (Sum.inl 1) "Отличный банк".toList
    (predict_one demoModels (Sum.inl 1) "Отличный банк".toList)
    (predict_one demoModels (Sum.inl 1) "Отличный банк".toList) rfl rfl

/-- C6: in every `ReviewPrediction` produced by the aggregator, each topic key
occurs at most once in `topic_sentiments`, even when several clauses of the
review mention the same topic. -/
theorem aggregate_topic_dedup (rid : ReviewId) (preds : List ClausePrediction) :
    (((aggregate rid preds).topic_sentiments).map Prod.fst).Nodup :=
  topicKeys_nodup rid preds

/-- C5: the aggregator's `topic_sentiments` mapping is never empty: when no
clause matched any ontology topic it contains exactly the sentinel entry
"Другое" carrying the sentiment resolved across all clauses. -/
theorem aggregate_sentinel_nonempty (rid : ReviewId) (preds : List ClausePrediction) :
    (aggregate rid preds).topic_sentiments ≠ []
    ∧ (mentionedTopics preds = [] →
        (aggregate rid preds).topic_sentiments
          = [(otherTopic, resolveSentiment (allSentiments preds))]) := by
  by_cases h : (mentionedTopics preds).isEmpty = true
  · exact ⟨by simp [aggregate, h], fun _ => by simp [aggregate, h]⟩
  · have hne : mentionedTopics preds ≠ [] := by
      simpa [List.isEmpty_iff] using h
    constructor
    · simp only [aggregate, h, if_false, Bool.false_eq_true]
      simp [topicSentimentPairs]
      exact hne
    · intro hme
      exact absurd hme hne

/-- Witness for C5 at a review whose single clause matched no topic. -/
theorem aggregate_sentinel_nonempty_witness :
    mentionedTopics noTopicPreds = []
    ∧ (aggregate (Sum.inl 7) noTopicPreds).topic_sentiments
        = [(otherTopic, resolveSentiment (allSentiments noTopicPreds))] :=
  ⟨by decide, (aggregate_sentinel_nonempty (Sum.inl 7) noTopicPreds).2 (by decide)⟩

/-- C1: for every topic mentioned by at least one clause of a review, the
aggregator resolves the topic's sentiment by majority vote over the sentiments
of all clauses that mentioned it (the resolved label has maximal vote count),
an exact tie resolves to the most severe label under
negative > neutral > positive, and in particular the mention list
[positive, negative] resolves to negative. -/
theorem aggregate_topic_majority (rid : ReviewId) (preds : List ClausePrediction)
    (t : String) (hmem : t ∈ mentionedTopics preds) :
    ((aggregate rid preds).topic_sentiments).lookup t
      = some (resolveSentiment (mentionList preds t))
    ∧ (∀ s, (mentionList preds t).count s
        ≤ (mentionList preds t).count (resolveSentiment (mentionList preds t)))
    ∧ (∀ s, (mentionList preds t).count s
          = (mentionList preds t).count (resolveSentiment (mentionList preds t)) →
        s.severity ≤ (resolveSentiment (mentionList preds t)).severity)
    ∧ resolveSentiment [Sentiment.positive, Sentiment.negative] = Sentiment.negative := by
  have hne : ¬ (mentionedTopics preds).isEmpty = true := by
    simp only [List.isEmpty_iff]
    exact List.ne_nil_of_mem hmem
  refine ⟨?_, fun s => resolveSentiment_count_le _ s,
    fun s hs => resolveSentiment_severity _ s hs, by decide⟩
  have hagg : aggregate rid preds
      = { review_id := rid
          topic_sentiments := topicSentimentPairs preds
          overall_confidence := overallConfidence preds } := by
    unfold aggregate
    rw [if_neg hne]
  rw [hagg]
  exact lookup_map_pair (fun x => resolveSentiment (mentionList preds x))
    (mentionedTopics preds) t hmem

/-- Witness for C1 at a topic mentioned by two clauses with a positive/negative
tie. -/
theorem aggregate_topic_majority_witness :
    "Ипотека" ∈ mentionedTopics demoPreds
    ∧ (((aggregate (Sum.inl 1) demoPreds).topic_sentiments).lookup "Ипотека"
        = some (resolveSentiment (mentionList demoPreds "Ипотека"))
      ∧ (∀ s, (mentionList demoPreds "Ипотека").count s
          ≤ (mentionList demoPreds "Ипотека").count
              (resolveSentiment (mentionList demoPreds "Ипотека")))
      ∧ (∀ s, (mentionList demoPreds "Ипотека").count s
            = (mentionList demoPreds "Ипотека").count
                (resolveSentiment (mentionList demoPreds "Ипотека")) →
          s.severity ≤ (resolveSentiment (mentionList demoPreds "Ипотека")).severity)
      ∧ resolveSentiment [Sentiment.positive, Sentiment.negative] = Sentiment.negative) :=
  ⟨by decide, aggregate_topic_majority (Sum.inl 1) demoPreds "Ипотека" (by decide)⟩

/-- C4: for every input record of a prediction batch, the batch output contains
a record with the same id whose `topics` and `sentiments` are parallel arrays
of equal length, and entrywise `sentiments[i]` is exactly the sentiment the
pipeline resolved for `topics[i]` in that review's `topic_sentiments` mapping. -/
theorem predict_batch_contract (m : Models) (inputs : List RawInput) (r : RawInput)
    (hr : r ∈ inputs) :
    ∃ out, out ∈ predict_batch m inputs
      ∧ out.id = r.id
      ∧ out.topics.length = out.sentiments.length
      ∧ ∀ p ∈ out.topics.zip out.sentiments,
          ((predict_one m r.id r.text).topic_sentiments).lookup p.1 = some p.2 := by
  refine ⟨predictRecord m r, List.mem_map_of_mem _ hr, ?_, ?_, ?_⟩
  · exact aggregate_review_id r.id (clausePredictions m r.text)
  · simp [predictRecord]
  · intro p hp
    have hz : (predictRecord m r).topics.zip (predictRecord m r).sentiments
        = (predict_one m r.id r.text).topic_sentiments :=
      zip_fst_snd ((predict_one m r.id r.text).topic_sentiments)
    rw [hz] at hp
    exact lookup_of_mem_nodup ((predict_one m r.id r.text).topic_sentiments) p
      (topicKeys_nodup r.id (clausePredictions m r.text)) hp

/-- Witness for C4 at a concrete model and one-review batch. -/
theorem predict_batch_contract_witness :
    ({ id := Sum.inl 1, text := "Отличный банк".toList } : RawInput) ∈ demoInputs
    ∧ ∃ out, out ∈ predict_batch demoModels demoInputs
      ∧ out.id = ({ id := Sum.inl 1, text := "Отличный банк".toList } : RawInput).id
      ∧ out.topics.length = out.sentiments.length
      ∧ ∀ p ∈ out.topics.zip out.sentiments,
          ((predict_one demoModels (Sum.inl 1) "Отличный банк".toList).topic_sentiments).lookup p.1
            = some p.2 :=
  ⟨by decide,
    predict_batch_contract demoModels demoInputs
      { id := Sum.inl 1, text := "Отличный банк".toList } (by decide)⟩

/-- C8 (amended): for every review text that contains no sentence-ending
punctuation, no configured discourse marker, and at least one non-whitespace
token, `split` returns exactly one clause whose text is the review's words
joined by single spaces; in particular the clause equals the whole review text
whenever the text is already whitespace-normalized. -/
theorem split_no_delimiters (text : List Char)
    (hp : ∀ c ∈ text, sentencePunct.contains c = false)
    (hm : containsMarker (wordsOf text) = false)
    (hw : wordsOf text ≠ []) :
    split text = [joinWords (wordsOf text)]
    ∧ (joinWords (wordsOf text) = text → split text = [text]) := by
  refine ⟨wordsOf_split_eq text hp hm hw, ?_⟩
  intro he
  rw [wordsOf_split_eq text hp hm hw, he]

/-- Witness for C8 at a delimiter-free review text. -/
theorem split_no_delimiters_witness :
    (∀ c ∈ "Отличное приложение".toList, sentencePunct.contains c = false)
    ∧ (split "Отличное приложение".toList
        = [joinWords (wordsOf "Отличное приложение".toList)]
      ∧ (joinWords (wordsOf "Отличное приложение".toList) = "Отличное приложение".toList →
          split "Отличное приложение".toList = ["Отличное приложение".toList])) :=
  ⟨by decide,
    split_no_delimiters "Отличное приложение".toList (by decide) (by decide) (by decide)⟩

/-- Counterexample for C8 as stated: a whitespace-only review contains no
delimiter yet yields zero clauses, and a review with doubled inner spaces
yields one clause that differs from the whole text (whitespace normalization). -/
theorem split_counterexample :
    (" ".toList).all (fun c => !sentencePunct.contains c) = true
    ∧ containsMarker (wordsOf " ".toList) = false
    ∧ split " ".toList = []
    ∧ ("пример  текста".toList).all (fun c => !sentencePunct.contains c) = true
    ∧ containsMarker (wordsOf "пример  текста".toList) = false
    ∧ split "пример  текста".toList = ["пример текста".toList]
    ∧ "пример текста".toList ≠ "пример  текста".toList := by
  decide

/-- C2 (amended): when the ML pipeline failed to initialize (`ml_pipeline` is
`None`), a valid prediction request is served through the fallback stub after a
logged warning — it is not failed with a `ModelUnavailable` service error;
pipeline unavailability is surfaced only by the dedicated health endpoint,
which raises HTTP 503. -/
theorem predict_fallback_amended (ct : Option String) (sz : Option Nat)
    (items : List RawItem)
    (hct : mimeJsonOk ct = true) (hsz : sizeExceeds sz = false)
    (hne : items.isEmpty = false) (hall : items.all itemValid = true) :
    predict_file none ct sz items = PredictOutcome.fallback
    ∧ predict_health none
        = Except.error { status_code := 503, detail := "ML пайплайн недоступен" } := by
  constructor
  · simp [predict_file, hct, hsz, parseUploadData, hne, hall]
  · rfl

/-- Witness for C2 at a concrete valid upload. -/
theorem predict_fallback_amended_witness :
    mimeJsonOk (some "application/json") = true
    ∧ (predict_file none (some "application/json") (some 100) demoBatch
        = PredictOutcome.fallback
      ∧ predict_health none
          = Except.error { status_code := 503, detail := "ML пайплайн недоступен" }) :=
  ⟨by decide,
    predict_fallback_amended (some "application/json") (some 100) demoBatch
      (by decide) (by decide) (by decide) (by decide)⟩

/-- Counterexample for C2 as stated: with the classifier backend unavailable,
a prediction request is answered by the fallback stub, not rejected with a
service-level `ModelUnavailable` error. -/
theorem predict_fallback_counterexample :
    predict_file none (some "application/json") (some 100) demoBatch
      = PredictOutcome.fallback
    ∧ predict_file none (some "application/json") (some 100) demoBatch
        ≠ PredictOutcome.reject 503 "ML пайплайн недоступен" := by
  decide

/-- C3 (amended): an upload batch containing a review whose text is empty or
not a string is rejected as a whole with an HTTP 422 validation error — no
review of the batch is processed and there is no per-review skipping or
per-batch error list. -/
theorem predict_file_rejects_batch (ml : Option MLModel) (ct : Option String)
    (sz : Option Nat) (items : List RawItem) (it : RawItem)
    (hct : mimeJsonOk ct = true) (hsz : sizeExceeds sz = false)
    (hit : it ∈ items) (hbad : itemValid it = false) :
    predict_file ml ct sz items
      = PredictOutcome.reject 422 (validationMsg ValidationErr.invalidItem) := by
  have hne : items.isEmpty = false := by
    cases items with
    | nil => cases hit
    | cons a l => rfl
  have hall : items.all itemValid = false := by
    rw [Bool.eq_false_iff]
    intro hc
    rw [List.all_eq_true] at hc
    have hv := hc it hit
    rw [hbad] at hv
    cases hv
  simp [predict_file, hct, hsz, parseUploadData, hne, hall]

/-- Witness for C3 at a concrete two-review batch with one empty text. -/
theorem predict_file_rejects_batch_witness :
    ({ id := Sum.inl 1, text := some "" } : RawItem) ∈ badBatch
    ∧ predict_file none (some "application/json") (some 100) badBatch
        = PredictOutcome.reject 422 (validationMsg ValidationErr.invalidItem) :=
  ⟨by decide,
    predict_file_rejects_batch none (some "application/json") (some 100) badBatch
      { id := Sum.inl 1, text := some "" } (by decide) (by decide) (by decide) (by decide)⟩

/-- Counterexample for C3 as stated: a batch with one empty-text review is
rejected as a whole with HTTP 422, while the remaining valid review alone
would have been served — so the valid review was not processed and the batch
was aborted instead of the bad review being skipped. -/
theorem predict_file_batch_counterexample :
    predict_file none (some "application/json") (some 100) badBatch
      = PredictOutcome.reject 422 (validationMsg ValidationErr.invalidItem)
    ∧ predict_file none (some "application/json") (some 100)
        [{ id := Sum.inl 2, text := some "Отличный банк" }] = PredictOutcome.fallback := by
  decide

/-- C9 (amended): the frontend `handleFileSelect` records an error and leaves
the selected file unchanged for any file whose MIME type is not
application/json or whose size exceeds 10 MB, so no sequence of selections can
make such a file the submitted one; the backend enforces the same 10 MB limit
but a weaker JSON-type check — it rejects with HTTP 400 exactly the uploads
whose content type is missing or lacks the substring "json"
(case-insensitively), a check every frontend-accepted file also passes. -/
theorem upload_limits_amended (st : UploadState) (g : FileMeta) (fs : List FileMeta)
    (f : FileMeta) (ml : Option MLModel) (ct : Option String) (sz : Option Nat)
    (n : Nat) (items : List RawItem) :
    (¬ (g.ftype = "application/json" ∧ g.size ≤ 10 * 1024 * 1024) →
        (handleFileSelect st g).selectedFile = st.selectedFile
        ∧ ∃ msg, (handleFileSelect st g).error = some msg)
    ∧ ((runSelects fs).selectedFile = some f →
        f.ftype = "application/json" ∧ f.size ≤ 10 * 1024 * 1024)
    ∧ (mimeJsonOk ct = false →
        predict_file ml ct sz items
          = PredictOutcome.reject 400 "Поддерживаются только JSON файлы")
    ∧ (mimeJsonOk ct = true → 10 * 1024 * 1024 < n →
        predict_file ml ct (some n) items
          = PredictOutcome.reject 400 "Файл слишком большой")
    ∧ mimeJsonOk (some "application/json") = true := by
  refine ⟨?_, ?_, ?_, ?_, by decide⟩
  · intro hbad
    unfold handleFileSelect
    by_cases h1 : g.ftype = "application/json"
    · have h2 : 10 * 1024 * 1024 < g.size := by
        by_contra hc
        exact hbad ⟨h1, by omega⟩
      simp [h1, h2]
    · simp [h1]
  · exact runSelects_inv fs initState (by intro f hf; simp [initState] at hf) f
  · intro h
    simp [predict_file, h]
  · intro h1 h2
    simp [predict_file, h1, sizeExceeds, h2]

/-- Witness for C9 at a rejected MIME type. -/
theorem upload_limits_amended_witness :
    mimeJsonOk (some "text/plain") = false
    ∧ predict_file none (some "text/plain") (some 5) demoBatch
        = PredictOutcome.reject 400 "Поддерживаются только JSON файлы" :=
  ⟨by decide,
    ((upload_limits_amended initState { ftype := "text/plain", size := 5 } []
        { ftype := "text/plain", size := 5 } none (some "text/plain") (some 5) 5
        demoBatch).2.2.1) (by decide)⟩

/-- Counterexample for C9 as stated: a small file with MIME type "text/json"
is refused by the frontend (not application/json) but passes the backend type
check ("json" is a substring), so the backend does not enforce the same
JSON-type limit and does not reject this violating upload with HTTP 400. -/
theorem upload_limits_counterexample :
    (handleFileSelect initState { ftype := "text/json", size := 5 }).selectedFile = none
    ∧ (handleFileSelect initState { ftype := "text/json", size := 5 }).error
        = some "Пожалуйста, выберите JSON файл"
    ∧ predict_file none (some "text/json") (some 5) demoBatch = PredictOutcome.fallback
    ∧ predict_file none (some "text/json") (some 5) demoBatch
        ≠ PredictOutcome.reject 400 "Поддерживаются только JSON файлы" := by
  decide
